import Mathlib

/-!
ci-test-mapping: ownership resolution and the mapping regression check

A shallow embedding of

* `cmd/ci-test-mapping/mapping_verify.go` (the `map-verify` command),
* `pkg/api/types/v1/component.go` (`TestInfo`, `TestOwnership`),
* `pkg/components/apiserverauth/component.go`,
* `pkg/components/cloudcompute/machineapiproviders/component.go`,

followed by theorems about the regression check, `IdentifyTest` and `StableID`.

Go values are embedded as follows: `string` is `String`, `int` is `Int`, a slice
is a `List`, a pointer that may be nil is an `Option`, and a Go map is an
association list in which the most recent assignment to a key comes first.
-/

set_option autoImplicit false

namespace CiTestMapping

/-! ## Go maps -/

/-- A Go `map[κ]ν`, kept as the list of assignments made so far, newest first. -/
abbrev GoMap (κ ν : Type) := List (κ × ν)

namespace GoMap

variable {κ ν : Type}

/-- The statement `m[k] = v`: the new binding shadows any older one for `k`. -/
def set (m : GoMap κ ν) (k : κ) (v : ν) : GoMap κ ν := (k, v) :: m

/-- The two-valued read `v, ok := m[k]`: `none` stands for `ok == false`. -/
def get? [DecidableEq κ] : GoMap κ ν → κ → Option ν
  | [], _ => none
  | (k', v) :: m, k => if k' = k then some v else get? m k

/-- The one-valued read `m[k]`, which yields the zero value for a missing key. -/
def get [DecidableEq κ] (zero : ν) (m : GoMap κ ν) (k : κ) : ν :=
  (get? m k).getD zero

/-- A map literal `map[κ]ν{k1: v1, k2: v2, ...}`: the entries are assigned in
the order written (the Go compiler rejects a literal with a repeated key). -/
def ofLiteral (entries : List (κ × ν)) : GoMap κ ν :=
  entries.foldl (fun m e => m.set e.1 e.2) []

end GoMap

/-! ## `pkg/api/types/v1` -/

namespace v1

/-- The Go struct `TestInfo`: the input handed to component owners. -/
structure TestInfo where
  Name : String
  Suite : String
  Variants : List String
deriving DecidableEq, Repr

/-- The Go struct `civil.DateTime`, flattened (used by `TestOwnership.CreatedAt`). -/
structure DateTime where
  Year : Int := 0
  Month : Int := 0
  Day : Int := 0
  Hour : Int := 0
  Minute : Int := 0
  Second : Int := 0
  Nanosecond : Int := 0
deriving DecidableEq, Repr

/-- The Go struct `TestOwnership`; every field defaults to its Go zero value. -/
structure TestOwnership where
  APIVersion : String := ""
  Kind : String := ""
  ID : String := ""
  Name : String := ""
  Suite : String := ""
  Product : String := ""
  Priority : Int := 0
  StaffApprovedObsolete : Bool := false
  Component : String := ""
  Capabilities : List String := []
  JIRAComponent : String := ""
  JIRAComponentID : Option Rat := none
  CreatedAt : DateTime := {}
deriving DecidableEq, Repr

end v1

/-! ## `pkg/components` and `pkg/config` (declarations used by the sources) -/

namespace components

/-- Modelled from the spec: the constant `components.DefaultComponent` is declared
outside the embedded sources; the spec calls it the "Unknown" sentinel, and the
messages of `map-verify` print the same word. -/
def DefaultComponent : String := "Unknown"

end components

namespace config

/-- Modelled from the spec: the struct `config.ComponentMatcher` is declared
outside the embedded sources. The fields are the ones the spec lists for a
Matcher, under the names the component literals and `IdentifyTest` use. -/
structure ComponentMatcher where
  IncludeAll : List String := []
  IncludeAny : List String := []
  Suite : String := ""
  Priority : Int := 0
  JiraComponent : String := ""
  Capabilities : List String := []
deriving DecidableEq, Repr

/-- Modelled from the spec: the struct `config.Component` is declared outside the
embedded sources. The fields are the ones the spec lists for a Component Rule
Set, under the names the component literals, `IdentifyTest` and `StableID` use. -/
structure Component where
  Name : String := ""
  Operators : List String := []
  DefaultJiraComponent : String := ""
  Namespaces : List String := []
  Matchers : List ComponentMatcher := []
  TestRenames : GoMap String String := []
deriving DecidableEq, Repr

end config

/-! ## `cmd/ci-test-mapping/mapping_verify.go` -/

namespace cmd

open v1

/-- The local struct `cl` of `verifyMapCmd`: the key of the lookup table. -/
structure cl where
  name : String
  suite : String
deriving DecidableEq, Repr

/-- The loop "Create current mapping lookup table":
`currentComponents[cl{mapping.Name, mapping.Suite}] = mapping.Component`
for every record of the current (published) mapping, in order. -/
def currentComponents (currentMap : List TestOwnership) : GoMap cl String :=
  currentMap.foldl (fun m mapping => m.set ⟨mapping.Name, mapping.Suite⟩ mapping.Component) []

/-- The loop "Look for removed mappings" over the new mapping. -/
def removedMaps (current : GoMap cl String) (newMap : List TestOwnership) : List cl :=
  newMap.foldl
    (fun removed n =>
      if n.Component != components.DefaultComponent then removed
      else
        let locator : cl := ⟨n.Name, n.Suite⟩
        match current.get? locator with
        | some old => if old != components.DefaultComponent then removed ++ [locator] else removed
        | none => removed)
    []

/-- One warning line of `map-verify`: the fields `Name` and `Suite` and the
component printed in `test moved from %q to "Unknown"`. -/
structure Regression where
  name : String
  suite : String
  previousComponent : String
deriving DecidableEq, Repr

/-- The loop that logs one warning per element of `removedMaps`. -/
def warnings (current : GoMap cl String) (removed : List cl) : List Regression :=
  removed.map (fun r => ⟨r.name, r.suite, GoMap.get "" current r⟩)

/-- The regression check of one mapping file (lines 65 to 110), given the two
parsed snapshots: the warnings that would be logged. -/
def regressions (currentMap newMap : List TestOwnership) : List Regression :=
  let current := currentComponents currentMap
  warnings current (removedMaps current newMap)

/-- What the environment delivers for one mapping file: the result of the HTTP
request, of parsing its body, of opening the local file and of parsing it.
`none` for a parsed mapping means `fetchMap` returned an error. -/
structure MappingFile where
  getFailed : Bool := false
  statusCode : Nat := 200
  currentMap : Option (List TestOwnership)
  openFailed : Bool := false
  newMap : Option (List TestOwnership)
deriving DecidableEq, Repr

/-- How the process ends: `Run` returns (exit status 0), or `logrus.Fatalf`
ends the process with a failure status after the given warnings were logged. -/
inductive Outcome where
  | returned
  | fatal (warned : List Regression)
deriving DecidableEq, Repr

/-- What one pass through the body of the `for _, mf := range ...` loop does:
it leaves `Run` by `return`, ends the process by `Fatalf`, or reaches the end of
the body so that the loop goes on to the next file. -/
inductive Control where
  | next
  | ret
  | fatal (warned : List Regression)
deriving DecidableEq, Repr

/-- The body of the loop over the mapping files. -/
def verifyFile (mf : MappingFile) : Control :=
  if mf.getFailed then .ret
  else if mf.statusCode != 200 then .ret
  else
    match mf.currentMap with
    | none => .fatal []
    | some currentMap =>
      let current := currentComponents currentMap
      if mf.openFailed then .ret
      else
        match mf.newMap with
        | none => .fatal []
        | some newMap =>
          let removed := removedMaps current newMap
          if removed.length == 0 then .ret
          else .fatal (warnings current removed)

/-- The function `Run` of `verifyMapCmd`: the loop over `MappingFiles`. -/
def Run : List MappingFile → Outcome
  | [] => .returned
  | mf :: rest =>
    match verifyFile mf with
    | .next => Run rest
    | .ret => .returned
    | .fatal w => .fatal w

end cmd

/-! ## `pkg/components/apiserverauth/component.go` -/

/-- The Go interface type `error`; a nil error is `none`. -/
abbrev GoError := String

namespace apiserverauth

open v1

/-- The Go struct `Component`, which embeds `*config.Component`. -/
structure Component extends config.Component
deriving DecidableEq, Repr

/-- The package variable `ApiserverAuthComponent`. -/
def ApiserverAuthComponent : Component where
  Name := "apiserver-auth"
  Operators := []
  DefaultJiraComponent := "apiserver-auth"
  Namespaces := [
    "openshift-authentication",
    "openshift-authentication-operator"]
  Matchers := [
    { IncludeAll := ["bz-apiserver-auth"] },
    { IncludeAny := [
        ":APIServer ",
        ":Authentication ",
        ":Authentication:",
        "upgrade should succeed: authentication"],
      Priority := 3 }]
  TestRenames := GoMap.ofLiteral [
    ("[apiserver-auth][invariant] alert/KubePodNotReady should not be at or above info in ns/openshift-authentication",
     "[bz-apiserver-auth][invariant] alert/KubePodNotReady should not be at or above info in ns/openshift-authentication"),
    ("[apiserver-auth][invariant] alert/KubePodNotReady should not be at or above info in ns/openshift-authentication-operator",
     "[bz-apiserver-auth][invariant] alert/KubePodNotReady should not be at or above info in ns/openshift-authentication-operator"),
    ("[apiserver-auth][invariant] alert/KubePodNotReady should not be at or above pending in ns/openshift-authentication",
     "[bz-apiserver-auth][invariant] alert/KubePodNotReady should not be at or above pending in ns/openshift-authentication"),
    ("[apiserver-auth][invariant] alert/KubePodNotReady should not be at or above pending in ns/openshift-authentication-operator",
     "[bz-apiserver-auth][invariant] alert/KubePodNotReady should not be at or above pending in ns/openshift-authentication-operator"),
    ("[sig-scheduling][Early] The openshift-authentication pods [apigroup:oauth.openshift.io] should be scheduled on different nodes [Skipped:SingleReplicaTopology] [Suite:openshift/conformance/parallel]",
     "[sig-scheduling][Early] The openshift-authentication pods [apigroup:oauth.openshift.io] should be scheduled on different nodes [Suite:openshift/conformance/parallel]"),
    ("[sig-scheduling][Early] The openshift-oauth-apiserver pods [apigroup:oauth.openshift.io][apigroup:user.openshift.io] should be scheduled on different nodes [Skipped:SingleReplicaTopology] [Suite:openshift/conformance/parallel]",
     "[sig-scheduling][Early] The openshift-oauth-apiserver pods [apigroup:oauth.openshift.io][apigroup:user.openshift.io] should be scheduled on different nodes [Suite:openshift/conformance/parallel]")]

/-- The method `IdentifyTest`. The two functions it calls that are declared
outside the embedded sources are arguments: `FindMatch` is the method
`(*config.Component).FindMatch` (`none` for a nil matcher) and
`identifyCapabilities` is the package function of that name. -/
def IdentifyTest
    (FindMatch : config.Component → TestInfo → Option config.ComponentMatcher)
    (identifyCapabilities : TestInfo → List String)
    (c : Component) (test : TestInfo) : Option TestOwnership × Option GoError :=
  match FindMatch c.toComponent test with
  | some matcher =>
    let jira := matcher.JiraComponent
    let jira := if jira = "" then c.DefaultJiraComponent else jira
    (some {
        Name := test.Name,
        Component := c.Name,
        JIRAComponent := jira,
        Priority := matcher.Priority,
        Capabilities := matcher.Capabilities ++ identifyCapabilities test },
      none)
  | none => (none, none)

/-- The method `StableID`. -/
def StableID (c : Component) (test : TestInfo) : String :=
  match c.TestRenames.get? test.Name with
  | some stableName => stableName
  | none => test.Name

end apiserverauth

/-! ## `pkg/components/cloudcompute/machineapiproviders/component.go` -/

namespace cloudcomputemachineapiproviders

open v1

/-- The Go struct `Component`, which embeds `*config.Component`. -/
structure Component extends config.Component
deriving DecidableEq, Repr

/-- The package variable `MachineAPIProvidersComponent`. -/
def MachineAPIProvidersComponent : Component where
  Name := "Cloud Compute / Machine API Providers"
  Operators := []
  DefaultJiraComponent := "Cloud Compute / Machine API Providers"
  Matchers := [
    { IncludeAny := [
        "[sig-cluster-lifecycle] Cluster_Infrastructure MAPI",
        "[sig-cluster-lifecycle] Cluster_Infrastructure Upgrade",
        "upgrade should succeed: machine-api"],
      Priority := 1 },
    { Suite := "Alerting for machine-api" },
    { Suite := "Machine-api components upgrade tests" },
    { Suite := "UPI GCP Tests" },
    { Suite := "Machine misc features testing" },
    { Suite := "Machine features testing" },
    { Suite := "AWS machine specific features testing" }]

/-- The method `IdentifyTest`; `FindMatch` and `identifyCapabilities` are
arguments, as in the apiserver-auth package. -/
def IdentifyTest
    (FindMatch : config.Component → TestInfo → Option config.ComponentMatcher)
    (identifyCapabilities : TestInfo → List String)
    (c : Component) (test : TestInfo) : Option TestOwnership × Option GoError :=
  match FindMatch c.toComponent test with
  | some matcher =>
    let jira := matcher.JiraComponent
    let jira := if jira = "" then c.DefaultJiraComponent else jira
    (some {
        Name := test.Name,
        Component := c.Name,
        JIRAComponent := jira,
        Priority := matcher.Priority,
        Capabilities := matcher.Capabilities ++ identifyCapabilities test },
      none)
  | none => (none, none)

/-- The method `StableID`. -/
def StableID (c : Component) (test : TestInfo) : String :=
  match c.TestRenames.get? test.Name with
  | some stableName => stableName
  | none => test.Name

end cloudcomputemachineapiproviders

/-! ## Vocabulary of the statements -/

namespace cmd

open v1

/-- The key `cl{n.Name, n.Suite}` under which a record is stored and looked up. -/
def locator (n : TestOwnership) : cl := ⟨n.Name, n.Suite⟩

/-- The test the second loop applies to a record of the new mapping: its component
is the default one, and the lookup table has a different component for its key. -/
def moved (current : GoMap cl String) (n : TestOwnership) : Bool :=
  n.Component == components.DefaultComponent &&
    (match current.get? (locator n) with
     | some old => old != components.DefaultComponent
     | none => false)

/-- A record with the given name, suite and component, the other fields zero. -/
def record (name suite component : String) : TestOwnership :=
  { Name := name, Suite := suite, Component := component }

/-- Scenario A of the spec, published mapping: test `t1` of suite `s1` is owned by `auth`. -/
def scenarioAOld : List TestOwnership := [record "t1" "s1" "auth"]

/-- Scenario A of the spec, new mapping: the same test now resolves to "Unknown". -/
def scenarioANew : List TestOwnership := [record "t1" "s1" "Unknown"]

/-- Scenario B of the spec, new mapping: a new test `t2` resolves to "Unknown". -/
def scenarioBNew : List TestOwnership := [record "t2" "s1" "Unknown"]

/-- A published mapping that lists `t1` of `s1` twice: first owned by `auth`, then
as "Unknown". -/
def ownedThenUnknown : List TestOwnership :=
  [record "t1" "s1" "auth", record "t1" "s1" "Unknown"]

/-- A published mapping that lists `t1` of `s1` twice: first as "Unknown", then
owned by `auth`. -/
def unknownThenOwned : List TestOwnership :=
  [record "t1" "s1" "Unknown", record "t1" "s1" "auth"]

/-- The mapping `unknownThenOwned` with the component of its second record changed
from `auth` to "Unknown". -/
def unknownTwice : List TestOwnership :=
  [record "t1" "s1" "Unknown", record "t1" "s1" "Unknown"]

/-- A mapping file whose two snapshots load and parse and that has no regression
(scenario B of the spec). -/
def cleanFile : MappingFile := { currentMap := some [], newMap := some scenarioBNew }

/-- A mapping file whose two snapshots load and parse and in which `t1` moved from
`auth` to "Unknown" (scenario A of the spec). -/
def regressedFile : MappingFile := { currentMap := some scenarioAOld, newMap := some scenarioANew }

end cmd

namespace config

/-- A sample value for the argument `FindMatch` of `IdentifyTest`: the first
declared matcher whose `Suite` is set and equals the suite of the test. It is
used in concrete instances only; the theorems hold for every `FindMatch`. -/
def firstSuiteMatch (c : Component) (test : v1.TestInfo) : Option ComponentMatcher :=
  c.Matchers.find? (fun m => m.Suite != "" && m.Suite == test.Suite)

/-- A sample value for the argument `identifyCapabilities` of `IdentifyTest`:
tests observed under the job variant "Upgrade:micro" get the capability
"Upgrade". -/
def upgradeCapability (test : v1.TestInfo) : List String :=
  if "Upgrade:micro" ∈ test.Variants then ["Upgrade"] else []

/-- A rule set with one matcher that overrides the JIRA component and attaches
the capability "Upgrade". -/
def upgradeRules : Component :=
  { Name := "Cloud Compute / Machine API Providers",
    DefaultJiraComponent := "Cloud Compute / Machine API Providers",
    Matchers := [
      { Suite := "Machine-api components upgrade tests",
        JiraComponent := "Cloud Compute / Other Provider",
        Priority := 2,
        Capabilities := ["Upgrade"] }] }

/-- A test of the suite "UPI GCP Tests". -/
def gcpTest : v1.TestInfo :=
  { Name := "install should succeed", Suite := "UPI GCP Tests", Variants := ["Platform:gcp"] }

/-- A test of the suite "Machine-api components upgrade tests" that was observed
in upgrade jobs. -/
def upgradeTest : v1.TestInfo :=
  { Name := "machine-api upgrade should succeed",
    Suite := "Machine-api components upgrade tests",
    Variants := ["Platform:aws", "Upgrade:micro"] }

/-- A rule set with one matcher, for the suite "UPI GCP Tests", that attaches the
capability "Install". -/
def installRules : Component :=
  { Name := "Cloud Compute / Machine API Providers",
    DefaultJiraComponent := "Cloud Compute / Machine API Providers",
    Matchers := [{ Suite := "UPI GCP Tests", Capabilities := ["Install"] }] }

/-- A test of the suite "UPI GCP Tests" that was observed in upgrade jobs. -/
def gcpUpgradeTest : v1.TestInfo :=
  { Name := "install should succeed", Suite := "UPI GCP Tests",
    Variants := ["Platform:gcp", "Upgrade:micro"] }

/-- A test of the suite "openshift-tests" under its current name, which the rename
table of the apiserver-auth component maps to an older `bz-` name. -/
def renamedAlertTest : v1.TestInfo :=
  { Name := "[apiserver-auth][invariant] alert/KubePodNotReady should not be at or above info in ns/openshift-authentication",
    Suite := "openshift-tests", Variants := ["Platform:aws"] }

end config

namespace v1

/-- The stable ID in the words of the doc comment of the interface method
`Component.StableID`: the suite name + `.` + a test name (the name of the test,
or its oldest name when the test was renamed). -/
def documentedStableID (suite name : String) : String := suite ++ "." ++ name

end v1

/-! ## Lemmas on Go maps -/

namespace GoMap

variable {κ ν : Type} [DecidableEq κ]

theorem get?_eq_none_iff (m : GoMap κ ν) (k : κ) :
    get? m k = none ↔ ∀ e ∈ m, e.1 ≠ k := by
  induction m with
  | nil => simp [get?]
  | cons e m ih =>
    obtain ⟨k', v⟩ := e
    by_cases h : k' = k
    · simp [get?, h]
    · simp [get?, h, ih]

theorem mem_of_get?_eq_some (m : GoMap κ ν) (k : κ) (v : ν) (h : get? m k = some v) :
    (k, v) ∈ m := by
  induction m with
  | nil => simp [get?] at h
  | cons e m ih =>
    obtain ⟨k', v'⟩ := e
    by_cases hk : k' = k
    · simp [get?, hk] at h
      simp [hk, h]
    · simp [get?, hk] at h
      exact List.mem_cons_of_mem _ (ih h)

theorem get?_append_of_none (m₁ m₂ : GoMap κ ν) (k : κ) (h : get? m₁ k = none) :
    get? (m₁ ++ m₂) k = get? m₂ k := by
  induction m₁ with
  | nil => rfl
  | cons e m ih =>
    obtain ⟨k', v'⟩ := e
    by_cases hk : k' = k
    · simp [get?, hk] at h
    · simp [get?, hk] at h
      simp [get?, hk, ih h]

theorem get?_append_of_some (m₁ m₂ : GoMap κ ν) (k : κ) (v : ν) (h : get? m₁ k = some v) :
    get? (m₁ ++ m₂) k = some v := by
  induction m₁ with
  | nil => simp [get?] at h
  | cons e m ih =>
    obtain ⟨k', v'⟩ := e
    by_cases hk : k' = k
    · simp [get?, hk] at h
      simp [get?, hk, h]
    · simp [get?, hk] at h
      simp [get?, hk, ih h]

theorem get?_of_mem_of_nodup (m : GoMap κ ν) (k : κ) (v : ν)
    (hn : (m.map Prod.fst).Nodup) (h : (k, v) ∈ m) : get? m k = some v := by
  induction m with
  | nil => simp at h
  | cons e m ih =>
    obtain ⟨k', v'⟩ := e
    simp only [List.map_cons, List.nodup_cons] at hn
    rcases List.mem_cons.mp h with h | h
    · cases h
      simp [get?]
    · have hk : k' ≠ k := by
        intro hk
        subst hk
        exact hn.1 (List.mem_map.mpr ⟨(k', v), h, rfl⟩)
      simp [get?, hk, ih hn.2 h]

end GoMap

/-! ## Lemmas on the regression check -/

namespace cmd

open v1

theorem currentComponents_eq (currentMap : List TestOwnership) :
    currentComponents currentMap
      = (currentMap.map (fun r => (locator r, r.Component))).reverse := by
  have aux : ∀ (l : List TestOwnership) (acc : GoMap cl String),
      l.foldl (fun m mapping => m.set ⟨mapping.Name, mapping.Suite⟩ mapping.Component) acc
        = (l.map (fun r => (locator r, r.Component))).reverse ++ acc := by
    intro l
    induction l with
    | nil => intro acc; rfl
    | cons r l ih =>
      intro acc
      rw [List.foldl_cons, ih]
      simp [GoMap.set, locator]
  simpa [currentComponents] using aux currentMap []

theorem removedMaps_eq (current : GoMap cl String) (newMap : List TestOwnership) :
    removedMaps current newMap = (newMap.filter (moved current)).map locator := by
  have aux : ∀ (l : List TestOwnership) (acc : List cl),
      l.foldl
        (fun removed n =>
          if n.Component != components.DefaultComponent then removed
          else
            let locator : cl := ⟨n.Name, n.Suite⟩
            match current.get? locator with
            | some old =>
              if old != components.DefaultComponent then removed ++ [locator] else removed
            | none => removed)
        acc
        = acc ++ (l.filter (moved current)).map locator := by
    intro l
    induction l with
    | nil => intro acc; simp
    | cons n l ih =>
      intro acc
      rw [List.foldl_cons, ih]
      by_cases hc : n.Component = components.DefaultComponent
      · cases hg : current.get? ⟨n.Name, n.Suite⟩ with
        | none => simp [moved, locator, hc, hg]
        | some old =>
          by_cases ho : old = components.DefaultComponent
          · simp [moved, locator, hc, hg, ho]
          · simp [moved, locator, hc, hg, ho]
      · simp [moved, hc]
  simpa [removedMaps] using aux newMap []

theorem currentComponents_snoc (currentMap : List TestOwnership) (r : TestOwnership) :
    currentComponents (currentMap ++ [r])
      = (locator r, r.Component) :: currentComponents currentMap := by
  simp [currentComponents_eq]

/-- The table holds, for a key, the component of the last record with that key. -/
theorem currentComponents_get?_last (pre post : List TestOwnership) (o : TestOwnership)
    (k : cl) (hk : locator o = k) (hpost : ∀ x ∈ post, locator x ≠ k) :
    (currentComponents (pre ++ o :: post)).get? k = some o.Component := by
  rw [currentComponents_eq]
  simp only [List.map_append, List.map_cons, List.reverse_append, List.reverse_cons,
    List.append_assoc, List.singleton_append]
  rw [GoMap.get?_append_of_none]
  · simp [GoMap.get?, hk]
  · rw [GoMap.get?_eq_none_iff]
    intro e he
    simp only [List.mem_reverse, List.mem_map] at he
    obtain ⟨x, hx, rfl⟩ := he
    exact hpost x hx

theorem currentComponents_get?_eq_none (currentMap : List TestOwnership) (k : cl) :
    (currentComponents currentMap).get? k = none ↔ ∀ o ∈ currentMap, locator o ≠ k := by
  rw [currentComponents_eq, GoMap.get?_eq_none_iff]
  constructor
  · intro h o ho
    exact h (locator o, o.Component) (by simp only [List.mem_reverse, List.mem_map]; exact ⟨o, ho, rfl⟩)
  · intro h e he
    simp only [List.mem_reverse, List.mem_map] at he
    obtain ⟨x, hx, rfl⟩ := he
    exact h x hx

/-- A successful lookup comes from the last record with that key. -/
theorem currentComponents_get?_eq_some (currentMap : List TestOwnership) (k : cl) (c : String)
    (h : (currentComponents currentMap).get? k = some c) :
    ∃ pre o post, currentMap = pre ++ o :: post ∧ locator o = k ∧ o.Component = c ∧
      ∀ x ∈ post, locator x ≠ k := by
  induction currentMap using List.reverseRecOn with
  | nil => simp [currentComponents, GoMap.get?] at h
  | append_singleton l r ih =>
    rw [currentComponents_snoc] at h
    by_cases hk : locator r = k
    · simp [GoMap.get?, hk] at h
      exact ⟨l, r, [], rfl, hk, h, by simp⟩
    · simp [GoMap.get?, hk] at h
      obtain ⟨pre, o, post, hl, ho, hc, hpost⟩ := ih h
      refine ⟨pre, o, post ++ [r], by simp [hl], ho, hc, ?_⟩
      intro x hx
      rcases List.mem_append.mp hx with hx | hx
      · exact hpost x hx
      · simp at hx
        subst hx
        exact hk

/-- When the keys of the published mapping are pairwise distinct, the table holds
the component of each of its records. -/
theorem currentComponents_get?_of_nodup (currentMap : List TestOwnership)
    (hn : (currentMap.map locator).Nodup) (o : TestOwnership) (ho : o ∈ currentMap) :
    (currentComponents currentMap).get? (locator o) = some o.Component := by
  rw [currentComponents_eq]
  apply GoMap.get?_of_mem_of_nodup
  · rw [List.map_reverse, List.map_map]
    exact List.nodup_reverse.mpr (by simpa [Function.comp_def] using hn)
  · simp only [List.mem_reverse, List.mem_map]
    exact ⟨o, ho, rfl⟩

theorem regressions_eq (currentMap newMap : List TestOwnership) :
    regressions currentMap newMap
      = (newMap.filter (moved (currentComponents currentMap))).map
          (fun n => ⟨n.Name, n.Suite,
            GoMap.get "" (currentComponents currentMap) (locator n)⟩) := by
  simp [regressions, warnings, removedMaps_eq, List.map_map, Function.comp_def, locator]

theorem regressions_append (currentMap l₁ l₂ : List TestOwnership) :
    regressions currentMap (l₁ ++ l₂)
      = regressions currentMap l₁ ++ regressions currentMap l₂ := by
  simp [regressions_eq]

theorem regressions_cons_of_not_moved (currentMap l : List TestOwnership) (n : TestOwnership)
    (h : moved (currentComponents currentMap) n = false) :
    regressions currentMap (n :: l) = regressions currentMap l := by
  simp [regressions_eq, h]

theorem regressions_cons_of_moved (currentMap l : List TestOwnership) (n : TestOwnership)
    (h : moved (currentComponents currentMap) n = true) :
    regressions currentMap (n :: l)
      = ⟨n.Name, n.Suite, GoMap.get "" (currentComponents currentMap) (locator n)⟩
          :: regressions currentMap l := by
  simp [regressions_eq, h]

theorem regressions_eq_nil_iff (currentMap newMap : List TestOwnership) :
    regressions currentMap newMap = []
      ↔ ∀ n ∈ newMap, moved (currentComponents currentMap) n = false := by
  simp [regressions_eq, List.filter_eq_nil_iff]

theorem locator_eq_iff (a b : TestOwnership) :
    locator a = locator b ↔ a.Name = b.Name ∧ a.Suite = b.Suite := by
  simp [locator]

theorem moved_eq_true_iff (current : GoMap cl String) (n : TestOwnership) :
    moved current n = true ↔ n.Component = components.DefaultComponent ∧
      ∃ c, current.get? (locator n) = some c ∧ c ≠ components.DefaultComponent := by
  unfold moved
  cases hg : current.get? (locator n) with
  | none => simp
  | some old => simp

theorem moved_eq_false_of_real (current : GoMap cl String) (n : TestOwnership)
    (h : n.Component ≠ components.DefaultComponent) : moved current n = false := by
  simp [moved, h]

theorem moved_eq_false_of_absent (currentMap : List TestOwnership) (n : TestOwnership)
    (h : ∀ o ∈ currentMap, ¬ (o.Name = n.Name ∧ o.Suite = n.Suite)) :
    moved (currentComponents currentMap) n = false := by
  have hg : (currentComponents currentMap).get? (locator n) = none := by
    rw [currentComponents_get?_eq_none]
    intro o ho hk
    exact h o ho ((locator_eq_iff o n).mp hk)
  simp [moved, hg]

theorem nodup_locator_of_nodup_pairs (l : List TestOwnership)
    (h : (l.map (fun r => (r.Name, r.Suite))).Nodup) : (l.map locator).Nodup := by
  have hinj : Function.Injective (fun p : String × String => (⟨p.1, p.2⟩ : cl)) := by
    intro p q hpq
    cases p
    cases q
    simp at hpq
    simp [hpq]
  have := List.Nodup.map hinj h
  simpa [List.map_map, Function.comp_def, locator] using this

/-- Every record the check reports is reported with the component of the last
published record for its key, and that component is not the default one. -/
theorem regressions_complete_aux (pre post newMap : List TestOwnership)
    (o n : TestOwnership) (hn : n ∈ newMap)
    (hnc : n.Component = components.DefaultComponent)
    (hname : o.Name = n.Name) (hsuite : o.Suite = n.Suite)
    (hlast : ∀ x ∈ post, ¬ (x.Name = n.Name ∧ x.Suite = n.Suite))
    (hreal : o.Component ≠ components.DefaultComponent) :
    (⟨n.Name, n.Suite, o.Component⟩ : Regression) ∈ regressions (pre ++ o :: post) newMap := by
  have hg : (currentComponents (pre ++ o :: post)).get? (locator n) = some o.Component := by
    apply currentComponents_get?_last
    · exact (locator_eq_iff o n).mpr ⟨hname, hsuite⟩
    · intro x hx hk
      exact hlast x hx ((locator_eq_iff x n).mp hk)
  have hm : moved (currentComponents (pre ++ o :: post)) n = true :=
    (moved_eq_true_iff _ _).mpr ⟨hnc, o.Component, hg, hreal⟩
  rw [regressions_eq, List.mem_map]
  exact ⟨n, List.mem_filter.mpr ⟨hn, hm⟩, by simp [GoMap.get, hg]⟩

/-- Soundness of the report: each reported regression stems from a record of the
new mapping with the default component whose key has a real owner in the
published mapping. -/
theorem regressions_sound_aux (currentMap newMap : List TestOwnership) (r : Regression)
    (hr : r ∈ regressions currentMap newMap) :
    ∃ n ∈ newMap, n.Name = r.name ∧ n.Suite = r.suite ∧
      n.Component = components.DefaultComponent ∧
      ∃ o ∈ currentMap, o.Name = r.name ∧ o.Suite = r.suite ∧
        o.Component = r.previousComponent ∧
        r.previousComponent ≠ components.DefaultComponent := by
  rw [regressions_eq, List.mem_map] at hr
  obtain ⟨n, hn, rfl⟩ := hr
  obtain ⟨hn, hm⟩ := List.mem_filter.mp hn
  obtain ⟨hnc, c, hg, hc⟩ := (moved_eq_true_iff _ _).mp hm
  obtain ⟨pre, o, post, hl, hk, hoc, -⟩ := currentComponents_get?_eq_some _ _ _ hg
  have hk2 := (locator_eq_iff o n).mp hk
  refine ⟨n, hn, rfl, rfl, hnc, o, ?_, hk2.1, hk2.2, ?_, ?_⟩
  · rw [hl]; simp
  · simp [GoMap.get, hg, hoc]
  · simpa [GoMap.get, hg] using hc

theorem regressions_nil_left (newMap : List TestOwnership) : regressions [] newMap = [] := by
  rw [regressions_eq_nil_iff]
  intro n _
  exact moved_eq_false_of_absent [] n (by simp)

theorem regressions_self_of_nodup (S : List TestOwnership)
    (h : (S.map (fun r => (r.Name, r.Suite))).Nodup) : regressions S S = [] := by
  rw [regressions_eq_nil_iff]
  intro n hn
  have hg := currentComponents_get?_of_nodup S (nodup_locator_of_nodup_pairs S h) n hn
  by_cases hc : n.Component = components.DefaultComponent
  · simp [moved, hg, hc]
  · exact moved_eq_false_of_real _ n hc

theorem regressions_of_subset_of_nodup (S l : List TestOwnership)
    (h : (S.map (fun r => (r.Name, r.Suite))).Nodup) (hl : ∀ n ∈ l, n ∈ S) :
    regressions S l = [] := by
  rw [regressions_eq_nil_iff]
  intro n hn
  have hg := currentComponents_get?_of_nodup S (nodup_locator_of_nodup_pairs S h) n (hl n hn)
  by_cases hc : n.Component = components.DefaultComponent
  · simp [moved, hg, hc]
  · exact moved_eq_false_of_real _ n hc

theorem regressions_self_eq_nil_iff (S : List TestOwnership) :
    regressions S S = [] ↔
      ∀ pre o post, S = pre ++ o :: post →
        (∀ x ∈ post, ¬ (x.Name = o.Name ∧ x.Suite = o.Suite)) →
        o.Component ≠ components.DefaultComponent →
        ∀ n ∈ pre, n.Name = o.Name → n.Suite = o.Suite →
          n.Component ≠ components.DefaultComponent := by
  rw [regressions_eq_nil_iff]
  constructor
  · intro h pre o post hS hpost hreal n hn hname hsuite hnc
    have hg : (currentComponents S).get? (locator n) = some o.Component := by
      rw [hS]
      apply currentComponents_get?_last
      · exact (locator_eq_iff o n).mpr ⟨hname.symm, hsuite.symm⟩
      · intro x hx hk
        have := (locator_eq_iff x n).mp hk
        exact hpost x hx ⟨this.1.trans hname, this.2.trans hsuite⟩
    have hm : moved (currentComponents S) n = true :=
      (moved_eq_true_iff _ _).mpr ⟨hnc, o.Component, hg, hreal⟩
    have hf := h n (by rw [hS]; simp [hn])
    rw [hm] at hf
    exact Bool.noConfusion hf
  · intro h n hn
    by_contra hm
    have hm : moved (currentComponents S) n = true := by simpa using hm
    obtain ⟨hnc, c, hg, hc⟩ := (moved_eq_true_iff _ _).mp hm
    obtain ⟨pre, o, post, hS, hk, hoc, hpost⟩ := currentComponents_get?_eq_some _ _ _ hg
    have hk2 := (locator_eq_iff o n).mp hk
    have hpost2 : ∀ x ∈ post, ¬ (x.Name = o.Name ∧ x.Suite = o.Suite) := by
      intro x hx hxo
      exact hpost x hx ((locator_eq_iff x n).mpr ⟨hxo.1.trans hk2.1, hxo.2.trans hk2.2⟩)
    have hreal : o.Component ≠ components.DefaultComponent := by rw [hoc]; exact hc
    rw [hS] at hn
    rcases List.mem_append.mp hn with hn | hn
    · exact h pre o post hS hpost2 hreal n hn hk2.1.symm hk2.2.symm hnc
    · rcases List.mem_cons.mp hn with hn | hn
      · subst hn
        exact hreal hnc
      · exact hpost n hn rfl

theorem regressions_one_changed_aux (pre post : List TestOwnership) (r : TestOwnership)
    (hreal : r.Component ≠ components.DefaultComponent)
    (hn : ((pre ++ r :: post).map (fun x => (x.Name, x.Suite))).Nodup) :
    regressions (pre ++ r :: post)
        (pre ++ { r with Component := components.DefaultComponent } :: post)
      = [⟨r.Name, r.Suite, r.Component⟩] := by
  have hg : (currentComponents (pre ++ r :: post)).get?
      (locator { r with Component := components.DefaultComponent }) = some r.Component :=
    currentComponents_get?_of_nodup _ (nodup_locator_of_nodup_pairs _ hn) r (by simp)
  have hm : moved (currentComponents (pre ++ r :: post))
      { r with Component := components.DefaultComponent } = true :=
    (moved_eq_true_iff _ _).mpr ⟨rfl, r.Component, hg, hreal⟩
  rw [regressions_append, regressions_cons_of_moved _ _ _ hm,
    regressions_of_subset_of_nodup _ pre hn (by intro n h; simp [h]),
    regressions_of_subset_of_nodup _ post hn (by intro n h; simp [h])]
  simp [GoMap.get, hg]

/-- The lookup table holds a real component for a key exactly when the last
record of the published mapping with that key has a real component. -/
theorem currentComponents_real_iff (currentMap : List TestOwnership) (k : cl) :
    (∃ c, (currentComponents currentMap).get? k = some c ∧ c ≠ components.DefaultComponent) ↔
      ∃ pre o post, currentMap = pre ++ o :: post ∧ locator o = k ∧
        (∀ x ∈ post, locator x ≠ k) ∧ o.Component ≠ components.DefaultComponent := by
  constructor
  · rintro ⟨c, hg, hc⟩
    obtain ⟨pre, o, post, hl, hk, hoc, hpost⟩ := currentComponents_get?_eq_some _ _ _ hg
    exact ⟨pre, o, post, hl, hk, hpost, by rw [hoc]; exact hc⟩
  · rintro ⟨pre, o, post, hl, hk, hpost, hc⟩
    exact ⟨o.Component, by rw [hl]; exact currentComponents_get?_last pre post o k hk hpost, hc⟩

theorem regressions_self_split (pre post : List TestOwnership) (r : TestOwnership)
    (hreal : r.Component ≠ components.DefaultComponent) :
    regressions (pre ++ r :: post) (pre ++ r :: post)
      = regressions (pre ++ r :: post) pre ++ regressions (pre ++ r :: post) post := by
  rw [regressions_append _ pre (r :: post),
    regressions_cons_of_not_moved _ _ _ (moved_eq_false_of_real _ r hreal)]

theorem moved_changed_iff (current : GoMap cl String) (r : TestOwnership) :
    moved current { r with Component := components.DefaultComponent } = true ↔
      ∃ c, current.get? (locator r) = some c ∧ c ≠ components.DefaultComponent := by
  rw [moved_eq_true_iff]
  constructor
  · rintro ⟨_, h⟩
    exact h
  · intro h
    exact ⟨rfl, h⟩

/-- One record changed to the default component, the table holding a real
component for its key, the published mapping clean against itself: one warning. -/
theorem regressions_changed_of_clean (pre post : List TestOwnership) (r : TestOwnership)
    (hreal : r.Component ≠ components.DefaultComponent) (c : String)
    (hg : (currentComponents (pre ++ r :: post)).get? (locator r) = some c)
    (hc : c ≠ components.DefaultComponent)
    (hself : regressions (pre ++ r :: post) (pre ++ r :: post) = []) :
    regressions (pre ++ r :: post)
        (pre ++ { r with Component := components.DefaultComponent } :: post)
      = [⟨r.Name, r.Suite, c⟩] := by
  rw [regressions_self_split pre post r hreal] at hself
  obtain ⟨hpre, hpost⟩ := List.append_eq_nil.mp hself
  have hm := (moved_changed_iff (currentComponents (pre ++ r :: post)) r).mpr ⟨c, hg, hc⟩
  have hg2 : (currentComponents (pre ++ r :: post)).get?
      (locator { r with Component := components.DefaultComponent }) = some c := hg
  rw [regressions_append, regressions_cons_of_moved _ _ _ hm, hpre, hpost]
  simp [GoMap.get, hg2]

/-- Exactly one warning for the changed record forces the table to hold a real
component for its key and the published mapping to be clean against itself. -/
theorem clean_of_regressions_changed (pre post : List TestOwnership) (r : TestOwnership)
    (hreal : r.Component ≠ components.DefaultComponent) (c : String)
    (h : regressions (pre ++ r :: post)
        (pre ++ { r with Component := components.DefaultComponent } :: post)
      = [⟨r.Name, r.Suite, c⟩]) :
    (∃ d, (currentComponents (pre ++ r :: post)).get? (locator r) = some d ∧
        d ≠ components.DefaultComponent) ∧
      regressions (pre ++ r :: post) (pre ++ r :: post) = [] := by
  rw [regressions_self_split pre post r hreal]
  rw [regressions_append] at h
  cases hm : moved (currentComponents (pre ++ r :: post))
      { r with Component := components.DefaultComponent } with
  | true =>
    refine ⟨(moved_changed_iff _ r).mp hm, ?_⟩
    rw [regressions_cons_of_moved _ _ _ hm] at h
    have hl := congrArg List.length h
    simp only [List.length_append, List.length_cons, List.length_nil] at hl
    have h1 : (regressions (pre ++ r :: post) pre).length = 0 := by omega
    have h2 : (regressions (pre ++ r :: post) post).length = 0 := by omega
    rw [List.length_eq_zero] at h1 h2
    rw [h1, h2]
    rfl
  | false =>
    exfalso
    rw [regressions_cons_of_not_moved _ _ _ hm, ← regressions_append] at h
    have hmem : (⟨r.Name, r.Suite, c⟩ : Regression)
        ∈ regressions (pre ++ r :: post) (pre ++ post) := by
      rw [h]
      exact List.mem_singleton.mpr rfl
    rw [regressions_eq, List.mem_map] at hmem
    obtain ⟨n, hn, he⟩ := hmem
    obtain ⟨_, hmn⟩ := List.mem_filter.mp hn
    obtain ⟨_, d, hg, hd⟩ := (moved_eq_true_iff _ _).mp hmn
    have hk : locator n = locator r := by
      have hname : n.Name = r.Name := congrArg Regression.name he
      have hsuite : n.Suite = r.Suite := congrArg Regression.suite he
      exact (locator_eq_iff n r).mpr ⟨hname, hsuite⟩
    rw [hk] at hg
    have := (moved_changed_iff (currentComponents (pre ++ r :: post)) r).mpr ⟨d, hg, hd⟩
    rw [hm] at this
    exact Bool.noConfusion this

theorem Run_cons (mf : MappingFile) (rest : List MappingFile) :
    Run (mf :: rest) = Run [mf] := by
  have h : verifyFile mf ≠ Control.next := by
    unfold verifyFile
    split
    · simp
    · split
      · simp
      · split
        · simp
        · split
          · simp
          · split
            · simp
            · dsimp only
              split <;> simp
  cases hv : verifyFile mf with
  | next => exact absurd hv h
  | ret => simp [Run, hv]
  | fatal w => simp [Run, hv]

end cmd

/-! ## The regression check of `map-verify` -/

namespace cmd

open v1

/-- C1, as stated, fails when the published mapping lists a (name, suite) pair
more than once. In `ownedThenUnknown` the pair (t1, s1) occurs with the real
component `auth`, the new record for (t1, s1) is "Unknown", and yet nothing is
reported: the lookup table kept the later record, whose component is "Unknown". -/
theorem regressions_complete_counterexample :
    record "t1" "s1" "Unknown" ∈ scenarioANew ∧
    (record "t1" "s1" "Unknown").Component = components.DefaultComponent ∧
    record "t1" "s1" "auth" ∈ ownedThenUnknown ∧
    (record "t1" "s1" "auth").Name = (record "t1" "s1" "Unknown").Name ∧
    (record "t1" "s1" "auth").Suite = (record "t1" "s1" "Unknown").Suite ∧
    (record "t1" "s1" "auth").Component ≠ components.DefaultComponent ∧
    regressions ownedThenUnknown scenarioANew = [] := by
  decide

/-- C1, amended: completeness of the regression check. For every published
mapping and every new mapping, every new record whose component is "Unknown" and
for whose (name, suite) pair the LAST record of the published mapping with that
pair (the one the lookup table keeps) has a component other than "Unknown" is
reported as a regression carrying that name, that suite and that component. -/
theorem regressions_complete (pre post newMap : List TestOwnership)
    (o n : TestOwnership) (hn : n ∈ newMap)
    (hnc : n.Component = components.DefaultComponent)
    (hname : o.Name = n.Name) (hsuite : o.Suite = n.Suite)
    (hlast : ∀ x ∈ post, ¬ (x.Name = n.Name ∧ x.Suite = n.Suite))
    (hreal : o.Component ≠ components.DefaultComponent) :
    (⟨n.Name, n.Suite, o.Component⟩ : Regression) ∈ regressions (pre ++ o :: post) newMap :=
  regressions_complete_aux pre post newMap o n hn hnc hname hsuite hlast hreal

/-- Scenario A of the spec as an instance of `regressions_complete`: the new
"Unknown" record for (t1, s1) is reported with the previous component `auth`. -/
theorem regressions_complete_witness :
    (⟨"t1", "s1", "auth"⟩ : Regression) ∈ regressions scenarioAOld scenarioANew :=
  regressions_complete [] [] scenarioANew (record "t1" "s1" "auth")
    (record "t1" "s1" "Unknown") (by decide) (by decide) (by decide) (by decide)
    (by decide) (by decide)

/-- C2: no false positives in the regression check. A record of the new mapping
whose (name, suite) pair is absent from the published mapping, or whose component
is a real one, contributes nothing to the report (the report is the same with
that record left out); when the pair is absent, no reported regression carries
it; every reported regression stems from an "Unknown" new record whose pair has
a real owner in the published mapping; and with an empty published mapping
nothing is reported and `Run` returns without failure, for every new mapping. -/
theorem regressions_no_false_positive (currentMap pre post : List TestOwnership)
    (n : TestOwnership) :
    (((∀ o ∈ currentMap, ¬ (o.Name = n.Name ∧ o.Suite = n.Suite)) ∨
        n.Component ≠ components.DefaultComponent) →
      regressions currentMap (pre ++ n :: post) = regressions currentMap (pre ++ post)) ∧
    ((∀ o ∈ currentMap, ¬ (o.Name = n.Name ∧ o.Suite = n.Suite)) →
      ∀ r ∈ regressions currentMap (pre ++ n :: post),
        ¬ (r.name = n.Name ∧ r.suite = n.Suite)) ∧
    (∀ r ∈ regressions currentMap (pre ++ n :: post),
      ∃ m ∈ pre ++ n :: post, m.Name = r.name ∧ m.Suite = r.suite ∧
        m.Component = components.DefaultComponent ∧
        ∃ o ∈ currentMap, o.Name = r.name ∧ o.Suite = r.suite ∧
          o.Component = r.previousComponent ∧
          r.previousComponent ≠ components.DefaultComponent) ∧
    (∀ newMap : List TestOwnership,
      regressions [] newMap = [] ∧
      Run [{ currentMap := some [], newMap := some newMap }] = Outcome.returned) := by
  refine ⟨?_, ?_, ?_, ?_⟩
  · intro h
    have hm : moved (currentComponents currentMap) n = false := by
      rcases h with h | h
      · exact moved_eq_false_of_absent currentMap n h
      · exact moved_eq_false_of_real _ n h
    rw [regressions_append, regressions_cons_of_not_moved _ _ _ hm, ← regressions_append]
  · intro h r hr hrn
    obtain ⟨_, _, _, _, _, o, ho, hon, hos, _, _⟩ :=
      regressions_sound_aux currentMap _ r hr
    exact h o ho ⟨hon.trans hrn.1, hos.trans hrn.2⟩
  · intro r hr
    exact regressions_sound_aux currentMap _ r hr
  · intro newMap
    have h := regressions_nil_left newMap
    refine ⟨h, ?_⟩
    have hr : removedMaps (currentComponents []) newMap = [] := by
      have h2 := h
      simp only [regressions, warnings, List.map_eq_nil_iff] at h2
      exact h2
    simp [Run, verifyFile, hr]

/-- Scenario B of the spec and a reassignment as instances of
`regressions_no_false_positive`: the new test `t2` (absent from the published
mapping) is not reported, and a test that moves from `auth` to `etcd` is not
reported either. -/
theorem regressions_no_false_positive_witness :
    regressions scenarioAOld ([] ++ record "t2" "s1" "Unknown" :: scenarioANew)
        = regressions scenarioAOld ([] ++ scenarioANew) ∧
    regressions scenarioAOld ([] ++ record "t1" "s1" "etcd" :: [])
        = regressions scenarioAOld ([] ++ []) ∧
    Run [{ currentMap := some [], newMap := some scenarioBNew }] = Outcome.returned :=
  ⟨(regressions_no_false_positive scenarioAOld [] scenarioANew
      (record "t2" "s1" "Unknown")).1 (Or.inl (by decide)),
   (regressions_no_false_positive scenarioAOld [] []
      (record "t1" "s1" "etcd")).1 (Or.inr (by decide)),
   ((regressions_no_false_positive [] [] [] (record "t2" "s1" "Unknown")).2.2.2
      scenarioBNew).2⟩

/-- C3, as stated, fails when the published mapping lists a (name, suite) pair
more than once. `unknownTwice` is `unknownThenOwned` with the component of its
second record changed from `auth` to "Unknown", and the check reports two
regressions, not one; with `ownedThenUnknown`, changing the first record gives
`unknownTwice` as well, and the check reports none. -/
theorem regressions_one_changed_counterexample :
    regressions unknownThenOwned unknownTwice
        = [⟨"t1", "s1", "auth"⟩, ⟨"t1", "s1", "auth"⟩] ∧
    regressions ownedThenUnknown unknownTwice = [] := by
  decide

/-- C3, amended: verifier monotonicity. Let the new mapping be the published
one with exactly one record changed from a real component to "Unknown" (name and
suite unchanged). The check reports exactly one regression, for that record's
(name, suite) pair, if and only if the published mapping has no regression
against itself and the last of its records with that pair has a real component;
the regression then carries the component of that last record. In particular
this is so whenever no (name, suite) pair occurs more than once in the published
mapping, and the regression then carries the previous component of the changed
record. -/
theorem regressions_one_changed (pre post : List TestOwnership) (r : TestOwnership)
    (hreal : r.Component ≠ components.DefaultComponent) :
    ((∃ c, regressions (pre ++ r :: post)
          (pre ++ { r with Component := components.DefaultComponent } :: post)
        = [⟨r.Name, r.Suite, c⟩]) ↔
      (regressions (pre ++ r :: post) (pre ++ r :: post) = [] ∧
        ∃ pre₂ o post₂, pre ++ r :: post = pre₂ ++ o :: post₂ ∧
          o.Name = r.Name ∧ o.Suite = r.Suite ∧
          (∀ x ∈ post₂, ¬ (x.Name = r.Name ∧ x.Suite = r.Suite)) ∧
          o.Component ≠ components.DefaultComponent)) ∧
    (∀ pre₂ o post₂, pre ++ r :: post = pre₂ ++ o :: post₂ →
      o.Name = r.Name → o.Suite = r.Suite →
      (∀ x ∈ post₂, ¬ (x.Name = r.Name ∧ x.Suite = r.Suite)) →
      o.Component ≠ components.DefaultComponent →
      regressions (pre ++ r :: post) (pre ++ r :: post) = [] →
      regressions (pre ++ r :: post)
          (pre ++ { r with Component := components.DefaultComponent } :: post)
        = [⟨r.Name, r.Suite, o.Component⟩]) ∧
    (((pre ++ r :: post).map (fun x => (x.Name, x.Suite))).Nodup →
      regressions (pre ++ r :: post)
          (pre ++ { r with Component := components.DefaultComponent } :: post)
        = [⟨r.Name, r.Suite, r.Component⟩]) := by
  have last : ∀ pre₂ o post₂, pre ++ r :: post = pre₂ ++ o :: post₂ →
      o.Name = r.Name → o.Suite = r.Suite →
      (∀ x ∈ post₂, ¬ (x.Name = r.Name ∧ x.Suite = r.Suite)) →
      (currentComponents (pre ++ r :: post)).get? (locator r) = some o.Component := by
    intro pre₂ o post₂ hl hname hsuite hpost
    rw [hl]
    apply currentComponents_get?_last
    · exact (locator_eq_iff o r).mpr ⟨hname, hsuite⟩
    · intro x hx hk
      exact hpost x hx ((locator_eq_iff x r).mp hk)
  refine ⟨⟨?_, ?_⟩, ?_, ?_⟩
  · rintro ⟨c, h⟩
    obtain ⟨hreal₂, hself⟩ := clean_of_regressions_changed pre post r hreal c h
    refine ⟨hself, ?_⟩
    obtain ⟨pre₂, o, post₂, hl, hk, hpost, hc⟩ :=
      (currentComponents_real_iff _ _).mp hreal₂
    have hk2 := (locator_eq_iff o r).mp hk
    refine ⟨pre₂, o, post₂, hl, hk2.1, hk2.2, ?_, hc⟩
    intro x hx hxr
    exact hpost x hx ((locator_eq_iff x r).mpr hxr)
  · rintro ⟨hself, pre₂, o, post₂, hl, hname, hsuite, hpost, hc⟩
    exact ⟨o.Component, regressions_changed_of_clean pre post r hreal o.Component
      (last pre₂ o post₂ hl hname hsuite hpost) hc hself⟩
  · intro pre₂ o post₂ hl hname hsuite hpost hc hself
    exact regressions_changed_of_clean pre post r hreal o.Component
      (last pre₂ o post₂ hl hname hsuite hpost) hc hself
  · intro hn
    exact regressions_one_changed_aux pre post r hreal hn

/-- Instances of `regressions_one_changed` on a published mapping that repeats
pairs: (t0, s0) is listed twice with the owner `x`, and (t1, s1) is listed as
owned by `auth` and then by `etcd`. Changing the first (t1, s1) record to
"Unknown" yields exactly one regression, which carries `etcd`, the component of
the last record for (t1, s1). -/
theorem regressions_one_changed_witness :
    (record "t1" "s1" "auth").Component ≠ components.DefaultComponent ∧
    regressions
        ([record "t0" "s0" "x", record "t0" "s0" "x"] ++
          record "t1" "s1" "auth" :: [record "t1" "s1" "etcd"])
        ([record "t0" "s0" "x", record "t0" "s0" "x"] ++
          { record "t1" "s1" "auth" with Component := components.DefaultComponent } ::
            [record "t1" "s1" "etcd"])
      = [⟨"t1", "s1", "etcd"⟩] :=
  ⟨by decide,
   (regressions_one_changed [record "t0" "s0" "x", record "t0" "s0" "x"]
      [record "t1" "s1" "etcd"] (record "t1" "s1" "auth") (by decide)).2.1
      [record "t0" "s0" "x", record "t0" "s0" "x", record "t1" "s1" "auth"]
      (record "t1" "s1" "etcd") [] (by decide) (by decide) (by decide) (by decide)
      (by decide) (by decide)⟩

/-- C4, as stated, fails for a snapshot that lists a (name, suite) pair first as
"Unknown" and later with a real component: compared with itself,
`unknownThenOwned` yields one regression. -/
theorem regressions_self_counterexample :
    regressions unknownThenOwned unknownThenOwned = [⟨"t1", "s1", "auth"⟩] := by
  decide

/-- C4, amended: verifier idempotence. The check of a snapshot S against itself
yields zero regressions whenever no (name, suite) pair occurs more than once in
S; in general it yields zero regressions exactly when no pair whose last record
in S has a real component has an earlier record with component "Unknown". -/
theorem regressions_self (S : List TestOwnership) :
    ((S.map (fun r => (r.Name, r.Suite))).Nodup → regressions S S = []) ∧
    (regressions S S = [] ↔
      ∀ pre o post, S = pre ++ o :: post →
        (∀ x ∈ post, ¬ (x.Name = o.Name ∧ x.Suite = o.Suite)) →
        o.Component ≠ components.DefaultComponent →
        ∀ n ∈ pre, n.Name = o.Name → n.Suite = o.Suite →
          n.Component ≠ components.DefaultComponent) :=
  ⟨regressions_self_of_nodup S, regressions_self_eq_nil_iff S⟩

/-- An instance of `regressions_self`: a snapshot of three records with distinct
(name, suite) pairs, one of them "Unknown", has no regression against itself. -/
theorem regressions_self_witness :
    regressions
        [record "t0" "s1" "Unknown", record "t1" "s1" "auth", record "t1" "s2" "etcd"]
        [record "t0" "s1" "Unknown", record "t1" "s1" "auth", record "t1" "s2" "etcd"]
      = [] :=
  (regressions_self
    [record "t0" "s1" "Unknown", record "t1" "s1" "auth", record "t1" "s2" "etcd"]).1
    (by decide)

/-- C5, the code at a failing input: with two mapping files that both load and
parse, the first without a regression and the second with the regression
(t1, s1, auth), `Run` returns without failure, although the second file alone
makes it fail: the `return` taken when a file has no regression leaves the loop
over the mapping files. -/
theorem Run_skips_later_files :
    Run [cleanFile, regressedFile] = Outcome.returned ∧
    Run [regressedFile] = Outcome.fatal [⟨"t1", "s1", "auth"⟩] ∧
    Run [regressedFile, cleanFile] = Outcome.fatal [⟨"t1", "s1", "auth"⟩] := by
  decide

end cmd

/-! ## `IdentifyTest` -/

namespace apiserverauth

open v1 config

theorem IdentifyTest_of_some_auth
    (FindMatch : config.Component → TestInfo → Option ComponentMatcher)
    (identifyCapabilities : TestInfo → List String) (c : Component) (test : TestInfo)
    (matcher : ComponentMatcher) (h : FindMatch c.toComponent test = some matcher) :
    IdentifyTest FindMatch identifyCapabilities c test
      = (some {
            Name := test.Name,
            Component := c.Name,
            JIRAComponent :=
              if matcher.JiraComponent = "" then c.DefaultJiraComponent
              else matcher.JiraComponent,
            Priority := matcher.Priority,
            Capabilities := matcher.Capabilities ++ identifyCapabilities test },
          none) := by
  simp only [IdentifyTest, h]

end apiserverauth

namespace cloudcomputemachineapiproviders

open v1 config

theorem IdentifyTest_of_some_mapi
    (FindMatch : config.Component → TestInfo → Option ComponentMatcher)
    (identifyCapabilities : TestInfo → List String) (c : Component) (test : TestInfo)
    (matcher : ComponentMatcher) (h : FindMatch c.toComponent test = some matcher) :
    IdentifyTest FindMatch identifyCapabilities c test
      = (some {
            Name := test.Name,
            Component := c.Name,
            JIRAComponent :=
              if matcher.JiraComponent = "" then c.DefaultJiraComponent
              else matcher.JiraComponent,
            Priority := matcher.Priority,
            Capabilities := matcher.Capabilities ++ identifyCapabilities test },
          none) := by
  simp only [IdentifyTest, h]

end cloudcomputemachineapiproviders

section IdentifyTest

open v1 config

/-- C6: JIRA component resolution in `IdentifyTest` of both components. When
`FindMatch` yields a matcher for the test, a record is returned whose
`JIRAComponent` is the matcher's `JiraComponent` when that is non-empty and the
component's `DefaultJiraComponent` otherwise, whose `Component` is the rule
set's `Name` and whose `Priority` is the matcher's `Priority`. -/
theorem IdentifyTest_jira_component
    (FindMatch : config.Component → TestInfo → Option ComponentMatcher)
    (identifyCapabilities : TestInfo → List String) (test : TestInfo)
    (matcher : ComponentMatcher) :
    (∀ c : apiserverauth.Component, FindMatch c.toComponent test = some matcher →
      ∃ o, (apiserverauth.IdentifyTest FindMatch identifyCapabilities c test).1 = some o ∧
        (matcher.JiraComponent ≠ "" → o.JIRAComponent = matcher.JiraComponent) ∧
        (matcher.JiraComponent = "" → o.JIRAComponent = c.DefaultJiraComponent) ∧
        o.Component = c.Name ∧ o.Priority = matcher.Priority) ∧
    (∀ c : cloudcomputemachineapiproviders.Component,
      FindMatch c.toComponent test = some matcher →
      ∃ o, (cloudcomputemachineapiproviders.IdentifyTest FindMatch identifyCapabilities
              c test).1 = some o ∧
        (matcher.JiraComponent ≠ "" → o.JIRAComponent = matcher.JiraComponent) ∧
        (matcher.JiraComponent = "" → o.JIRAComponent = c.DefaultJiraComponent) ∧
        o.Component = c.Name ∧ o.Priority = matcher.Priority) := by
  constructor
  · intro c h
    rw [apiserverauth.IdentifyTest_of_some_auth _ _ _ _ _ h]
    refine ⟨_, rfl, ?_, ?_, rfl, rfl⟩
    · intro hj; simp [hj]
    · intro hj; simp [hj]
  · intro c h
    rw [cloudcomputemachineapiproviders.IdentifyTest_of_some_mapi _ _ _ _ _ h]
    refine ⟨_, rfl, ?_, ?_, rfl, rfl⟩
    · intro hj; simp [hj]
    · intro hj; simp [hj]

/-- Instances of `IdentifyTest_jira_component`: the matcher of `upgradeRules`
overrides the JIRA component, and the suite matcher "UPI GCP Tests" of the
registered Machine API Providers component falls back to the default one. -/
theorem IdentifyTest_jira_component_witness :
    (∃ o, (cloudcomputemachineapiproviders.IdentifyTest firstSuiteMatch upgradeCapability
            ⟨upgradeRules⟩ upgradeTest).1 = some o ∧
        (("Cloud Compute / Other Provider" : String) ≠ "" →
          o.JIRAComponent = "Cloud Compute / Other Provider") ∧
        (("Cloud Compute / Other Provider" : String) = "" →
          o.JIRAComponent = "Cloud Compute / Machine API Providers") ∧
        o.Component = "Cloud Compute / Machine API Providers" ∧ o.Priority = 2) ∧
    (∃ o, (cloudcomputemachineapiproviders.IdentifyTest firstSuiteMatch upgradeCapability
            cloudcomputemachineapiproviders.MachineAPIProvidersComponent gcpTest).1 = some o ∧
        ((("" : String) ≠ "") → o.JIRAComponent = "") ∧
        ((("" : String) = "") → o.JIRAComponent = "Cloud Compute / Machine API Providers") ∧
        o.Component = "Cloud Compute / Machine API Providers" ∧ o.Priority = 0) :=
  ⟨(IdentifyTest_jira_component firstSuiteMatch upgradeCapability upgradeTest
      { Suite := "Machine-api components upgrade tests",
        JiraComponent := "Cloud Compute / Other Provider",
        Priority := 2,
        Capabilities := ["Upgrade"] }).2 ⟨upgradeRules⟩ (by decide),
   (IdentifyTest_jira_component firstSuiteMatch upgradeCapability gcpTest
      { Suite := "UPI GCP Tests" }).2
      cloudcomputemachineapiproviders.MachineAPIProvidersComponent (by decide)⟩

/-- C7, as stated, fails: `IdentifyTest` concatenates the two lists and removes
no duplicate. `upgradeRules` declares one matcher, for the suite of
`upgradeTest`, with the capabilities ["Upgrade"]; the sample `FindMatch` yields
that declared matcher, and the sample heuristic derives ["Upgrade"] for the
test. Each of the two lists is free of repetitions, and the record returned by
`IdentifyTest` of either package lists "Upgrade" twice. -/
theorem IdentifyTest_capabilities_counterexample :
    upgradeRules.Matchers
      = [{ Suite := "Machine-api components upgrade tests",
           JiraComponent := "Cloud Compute / Other Provider",
           Priority := 2,
           Capabilities := ["Upgrade"] }] ∧
    firstSuiteMatch upgradeRules upgradeTest
      = some { Suite := "Machine-api components upgrade tests",
               JiraComponent := "Cloud Compute / Other Provider",
               Priority := 2,
               Capabilities := ["Upgrade"] } ∧
    (["Upgrade"] : List String).Nodup ∧
    upgradeCapability upgradeTest = ["Upgrade"] ∧
    (cloudcomputemachineapiproviders.IdentifyTest firstSuiteMatch upgradeCapability
        ⟨upgradeRules⟩ upgradeTest).1.map TestOwnership.Capabilities
      = some ["Upgrade", "Upgrade"] ∧
    (apiserverauth.IdentifyTest firstSuiteMatch upgradeCapability
        ⟨upgradeRules⟩ upgradeTest).1.map TestOwnership.Capabilities
      = some ["Upgrade", "Upgrade"] ∧
    ¬ (["Upgrade", "Upgrade"] : List String).Nodup := by
  decide

/-- C7, amended: the capabilities of an ownership record are the concatenation of
the matcher's capabilities and the heuristically derived ones, in that order. So
the list contains exactly the elements of the two lists, and it is free of
repetitions exactly when each of the two lists is and they share no element:
`IdentifyTest` itself removes no duplicate. For a matcher declared by one of the
two registered components, none of which attaches a capability, the list is the
heuristically derived one. -/
theorem IdentifyTest_capabilities
    (FindMatch : config.Component → TestInfo → Option ComponentMatcher)
    (identifyCapabilities : TestInfo → List String) (test : TestInfo)
    (matcher : ComponentMatcher) :
    (∀ c : apiserverauth.Component, FindMatch c.toComponent test = some matcher →
      ∃ o, (apiserverauth.IdentifyTest FindMatch identifyCapabilities c test).1 = some o ∧
        o.Capabilities = matcher.Capabilities ++ identifyCapabilities test ∧
        (∀ s, s ∈ o.Capabilities ↔
          s ∈ matcher.Capabilities ∨ s ∈ identifyCapabilities test) ∧
        (o.Capabilities.Nodup ↔
          matcher.Capabilities.Nodup ∧ (identifyCapabilities test).Nodup ∧
            ∀ s ∈ matcher.Capabilities, s ∉ identifyCapabilities test)) ∧
    (∀ c : cloudcomputemachineapiproviders.Component,
      FindMatch c.toComponent test = some matcher →
      ∃ o, (cloudcomputemachineapiproviders.IdentifyTest FindMatch identifyCapabilities
              c test).1 = some o ∧
        o.Capabilities = matcher.Capabilities ++ identifyCapabilities test ∧
        (∀ s, s ∈ o.Capabilities ↔
          s ∈ matcher.Capabilities ∨ s ∈ identifyCapabilities test) ∧
        (o.Capabilities.Nodup ↔
          matcher.Capabilities.Nodup ∧ (identifyCapabilities test).Nodup ∧
            ∀ s ∈ matcher.Capabilities, s ∉ identifyCapabilities test)) ∧
    (matcher ∈ apiserverauth.ApiserverAuthComponent.Matchers →
      FindMatch apiserverauth.ApiserverAuthComponent.toComponent test = some matcher →
      ∃ o, (apiserverauth.IdentifyTest FindMatch identifyCapabilities
              apiserverauth.ApiserverAuthComponent test).1 = some o ∧
        o.Capabilities = identifyCapabilities test) ∧
    (matcher ∈ cloudcomputemachineapiproviders.MachineAPIProvidersComponent.Matchers →
      FindMatch cloudcomputemachineapiproviders.MachineAPIProvidersComponent.toComponent test
        = some matcher →
      ∃ o, (cloudcomputemachineapiproviders.IdentifyTest FindMatch identifyCapabilities
              cloudcomputemachineapiproviders.MachineAPIProvidersComponent test).1 = some o ∧
        o.Capabilities = identifyCapabilities test) := by
  have key : ∀ (a b : List String),
      (∀ s, s ∈ a ++ b ↔ s ∈ a ∨ s ∈ b) ∧
      ((a ++ b).Nodup ↔ a.Nodup ∧ b.Nodup ∧ ∀ s ∈ a, s ∉ b) := by
    intro a b
    refine ⟨fun s => List.mem_append, ?_⟩
    rw [List.nodup_append]
    constructor
    · rintro ⟨ha, hb, hd⟩
      exact ⟨ha, hb, fun s hs hs2 => hd hs hs2⟩
    · rintro ⟨ha, hb, hd⟩
      exact ⟨ha, hb, fun s hs hs2 => hd s hs hs2⟩
  have hauth : ∀ m ∈ apiserverauth.ApiserverAuthComponent.Matchers,
      m.Capabilities = [] := by decide
  have hmapi : ∀ m ∈ cloudcomputemachineapiproviders.MachineAPIProvidersComponent.Matchers,
      m.Capabilities = [] := by decide
  refine ⟨?_, ?_, ?_, ?_⟩
  · intro c h
    rw [apiserverauth.IdentifyTest_of_some_auth _ _ _ _ _ h]
    exact ⟨_, rfl, rfl, (key _ _).1, (key _ _).2⟩
  · intro c h
    rw [cloudcomputemachineapiproviders.IdentifyTest_of_some_mapi _ _ _ _ _ h]
    exact ⟨_, rfl, rfl, (key _ _).1, (key _ _).2⟩
  · intro hm h
    rw [apiserverauth.IdentifyTest_of_some_auth _ _ _ _ _ h]
    exact ⟨_, rfl, by simp [hauth matcher hm]⟩
  · intro hm h
    rw [cloudcomputemachineapiproviders.IdentifyTest_of_some_mapi _ _ _ _ _ h]
    exact ⟨_, rfl, by simp [hmapi matcher hm]⟩

/-- Instances of `IdentifyTest_capabilities` for `gcpUpgradeTest`, a test of the
suite "UPI GCP Tests" observed in upgrade jobs, for which the sample heuristic
derives ["Upgrade"]. With `installRules`, whose matcher attaches ["Install"],
the record lists ["Install", "Upgrade"], each once. With the registered Machine
API Providers component, whose matcher for that suite attaches nothing, the
record lists the derived ["Upgrade"]. -/
theorem IdentifyTest_capabilities_witness :
    (∃ o, (cloudcomputemachineapiproviders.IdentifyTest firstSuiteMatch upgradeCapability
            ⟨installRules⟩ gcpUpgradeTest).1 = some o ∧
      o.Capabilities = ["Install"] ++ upgradeCapability gcpUpgradeTest ∧
      (∀ s, s ∈ o.Capabilities ↔
        s ∈ (["Install"] : List String) ∨ s ∈ upgradeCapability gcpUpgradeTest) ∧
      (o.Capabilities.Nodup ↔
        (["Install"] : List String).Nodup ∧ (upgradeCapability gcpUpgradeTest).Nodup ∧
          ∀ s ∈ (["Install"] : List String), s ∉ upgradeCapability gcpUpgradeTest)) ∧
    (["Install"] ++ upgradeCapability gcpUpgradeTest = ["Install", "Upgrade"] ∧
      (["Install", "Upgrade"] : List String).Nodup) ∧
    (∃ o, (cloudcomputemachineapiproviders.IdentifyTest firstSuiteMatch upgradeCapability
            cloudcomputemachineapiproviders.MachineAPIProvidersComponent
            gcpUpgradeTest).1 = some o ∧
      o.Capabilities = upgradeCapability gcpUpgradeTest) ∧
    upgradeCapability gcpUpgradeTest = ["Upgrade"] :=
  ⟨(IdentifyTest_capabilities firstSuiteMatch upgradeCapability gcpUpgradeTest
      { Suite := "UPI GCP Tests", Capabilities := ["Install"] }).2.1
      ⟨installRules⟩ (by decide),
   by decide,
   (IdentifyTest_capabilities firstSuiteMatch upgradeCapability gcpUpgradeTest
      { Suite := "UPI GCP Tests" }).2.2.2 (by decide) (by decide),
   by decide⟩

/-- C10: `IdentifyTest` of both components never fails and declines cleanly. The
error is always nil; the ownership is nil exactly when `FindMatch` yields no
matcher for the test; and a non-nil ownership whose `Name` is the name of the
test is returned exactly when `FindMatch` yields one. -/
theorem IdentifyTest_never_fails
    (FindMatch : config.Component → TestInfo → Option ComponentMatcher)
    (identifyCapabilities : TestInfo → List String) (test : TestInfo) :
    (∀ c : apiserverauth.Component,
      (apiserverauth.IdentifyTest FindMatch identifyCapabilities c test).2 = none ∧
      ((apiserverauth.IdentifyTest FindMatch identifyCapabilities c test).1 = none ↔
        FindMatch c.toComponent test = none) ∧
      ((∃ o, (apiserverauth.IdentifyTest FindMatch identifyCapabilities c test).1 = some o ∧
          o.Name = test.Name) ↔
        ∃ matcher, FindMatch c.toComponent test = some matcher)) ∧
    (∀ c : cloudcomputemachineapiproviders.Component,
      (cloudcomputemachineapiproviders.IdentifyTest FindMatch identifyCapabilities
        c test).2 = none ∧
      ((cloudcomputemachineapiproviders.IdentifyTest FindMatch identifyCapabilities
          c test).1 = none ↔
        FindMatch c.toComponent test = none) ∧
      ((∃ o, (cloudcomputemachineapiproviders.IdentifyTest FindMatch identifyCapabilities
            c test).1 = some o ∧ o.Name = test.Name) ↔
        ∃ matcher, FindMatch c.toComponent test = some matcher)) := by
  constructor
  · intro c
    cases h : FindMatch c.toComponent test with
    | none => simp [apiserverauth.IdentifyTest, h]
    | some m => simp [apiserverauth.IdentifyTest, h]
  · intro c
    cases h : FindMatch c.toComponent test with
    | none => simp [cloudcomputemachineapiproviders.IdentifyTest, h]
    | some m => simp [cloudcomputemachineapiproviders.IdentifyTest, h]


/-- An instance of `IdentifyTest_never_fails`: with the sample `FindMatch`, the
registered apiserver-auth component declines `gcpTest` with `nil, nil`, and the
registered Machine API Providers component claims it under its name. -/
theorem IdentifyTest_never_fails_witness :
    apiserverauth.IdentifyTest firstSuiteMatch upgradeCapability
        apiserverauth.ApiserverAuthComponent gcpTest = (none, none) ∧
    ∃ o, (cloudcomputemachineapiproviders.IdentifyTest firstSuiteMatch upgradeCapability
          cloudcomputemachineapiproviders.MachineAPIProvidersComponent gcpTest).1 = some o ∧
      o.Name = gcpTest.Name :=
  ⟨Prod.ext
      (((IdentifyTest_never_fails firstSuiteMatch upgradeCapability gcpTest).1
          apiserverauth.ApiserverAuthComponent).2.1.mpr (by decide))
      ((IdentifyTest_never_fails firstSuiteMatch upgradeCapability gcpTest).1
          apiserverauth.ApiserverAuthComponent).1,
   ((IdentifyTest_never_fails firstSuiteMatch upgradeCapability gcpTest).2
      cloudcomputemachineapiproviders.MachineAPIProvidersComponent).2.2.mpr
      ⟨{ Suite := "UPI GCP Tests" }, by decide⟩⟩

end IdentifyTest

/-! ## `StableID` -/

namespace apiserverauth

open v1

theorem StableID_of_get?_some_auth (c : Component) (test : TestInfo) (v : String)
    (h : c.TestRenames.get? test.Name = some v) : StableID c test = v := by
  simp [StableID, h]

theorem StableID_of_get?_none_auth (c : Component) (test : TestInfo)
    (h : c.TestRenames.get? test.Name = none) : StableID c test = test.Name := by
  simp [StableID, h]

theorem StableID_congr_auth (c : Component) (t t' : TestInfo) (h : t'.Name = t.Name) :
    StableID c t' = StableID c t := by
  simp [StableID, h]

/-- The result of `StableID` is the name itself or a value of the rename table. -/
theorem StableID_mem_auth (c : Component) (test : TestInfo)
    (h : ∃ v, (test.Name, v) ∈ c.TestRenames) :
    (test.Name, StableID c test) ∈ c.TestRenames := by
  cases hg : c.TestRenames.get? test.Name with
  | none =>
    obtain ⟨v, hv⟩ := h
    exact absurd rfl ((GoMap.get?_eq_none_iff _ _).mp hg _ hv)
  | some w =>
    rw [StableID_of_get?_some_auth c test w hg]
    exact GoMap.mem_of_get?_eq_some _ _ _ hg

theorem StableID_idempotent_of (c : Component)
    (hc : ∀ e ∈ c.TestRenames, ∀ f ∈ c.TestRenames, f.1 ≠ e.2)
    (t t' : TestInfo) (h : t'.Name = StableID c t) : StableID c t' = StableID c t := by
  cases hg : c.TestRenames.get? t.Name with
  | none =>
    rw [StableID_of_get?_none_auth c t hg] at h ⊢
    rw [StableID_of_get?_none_auth c t' (by rw [h]; exact hg), h]
  | some v =>
    rw [StableID_of_get?_some_auth c t v hg] at h ⊢
    have hm := GoMap.mem_of_get?_eq_some _ _ _ hg
    have hn : c.TestRenames.get? t'.Name = none := by
      rw [GoMap.get?_eq_none_iff]
      intro f hf
      rw [h]
      exact hc (t.Name, v) hm f hf
    rw [StableID_of_get?_none_auth c t' hn, h]

theorem TestRenames_keys_nodup :
    (ApiserverAuthComponent.TestRenames.map Prod.fst).Nodup := by
  decide

set_option maxRecDepth 100000 in
theorem TestRenames_values_not_keys :
    ∀ e ∈ ApiserverAuthComponent.TestRenames,
      ∀ f ∈ ApiserverAuthComponent.TestRenames, f.1 ≠ e.2 := by
  decide

end apiserverauth

namespace cloudcomputemachineapiproviders

open v1

theorem StableID_of_get?_some_mapi (c : Component) (test : TestInfo) (v : String)
    (h : c.TestRenames.get? test.Name = some v) : StableID c test = v := by
  simp [StableID, h]

theorem StableID_of_get?_none_mapi (c : Component) (test : TestInfo)
    (h : c.TestRenames.get? test.Name = none) : StableID c test = test.Name := by
  simp [StableID, h]

theorem StableID_congr_mapi (c : Component) (t t' : TestInfo) (h : t'.Name = t.Name) :
    StableID c t' = StableID c t := by
  simp [StableID, h]

theorem StableID_mem_mapi (c : Component) (test : TestInfo)
    (h : ∃ v, (test.Name, v) ∈ c.TestRenames) :
    (test.Name, StableID c test) ∈ c.TestRenames := by
  cases hg : c.TestRenames.get? test.Name with
  | none =>
    obtain ⟨v, hv⟩ := h
    exact absurd rfl ((GoMap.get?_eq_none_iff _ _).mp hg _ hv)
  | some w =>
    rw [StableID_of_get?_some_mapi c test w hg]
    exact GoMap.mem_of_get?_eq_some _ _ _ hg

theorem StableID_registered (test : TestInfo) :
    StableID MachineAPIProvidersComponent test = test.Name :=
  StableID_of_get?_none_mapi _ _ rfl

end cloudcomputemachineapiproviders

section StableID

open v1

/-- C8: `StableID` is a lookup in the rename table. For every test and every
component of either package: when the name of the test is a key of
`TestRenames`, the result is the value the table maps it to (what the two-valued
read yields, an entry of the table under that key), and otherwise it is the name
of the test unchanged; the result depends on the name only, not on the suite or
the variants. For the registered apiserver-auth component, whose keys are
distinct, the result is the value of the one entry under that key; the
registered Machine API Providers component, which has no rename table, returns
the name of every test. -/
theorem StableID_lookup (test : TestInfo) :
    (∀ c : apiserverauth.Component,
      (∀ v, c.TestRenames.get? test.Name = some v → apiserverauth.StableID c test = v) ∧
      ((∃ v, (test.Name, v) ∈ c.TestRenames) →
        (test.Name, apiserverauth.StableID c test) ∈ c.TestRenames) ∧
      ((∀ e ∈ c.TestRenames, e.1 ≠ test.Name) → apiserverauth.StableID c test = test.Name) ∧
      (∀ t' : TestInfo, t'.Name = test.Name →
        apiserverauth.StableID c t' = apiserverauth.StableID c test)) ∧
    (∀ c : cloudcomputemachineapiproviders.Component,
      (∀ v, c.TestRenames.get? test.Name = some v →
        cloudcomputemachineapiproviders.StableID c test = v) ∧
      ((∃ v, (test.Name, v) ∈ c.TestRenames) →
        (test.Name, cloudcomputemachineapiproviders.StableID c test) ∈ c.TestRenames) ∧
      ((∀ e ∈ c.TestRenames, e.1 ≠ test.Name) →
        cloudcomputemachineapiproviders.StableID c test = test.Name) ∧
      (∀ t' : TestInfo, t'.Name = test.Name →
        cloudcomputemachineapiproviders.StableID c t'
          = cloudcomputemachineapiproviders.StableID c test)) ∧
    (∀ v, (test.Name, v) ∈ apiserverauth.ApiserverAuthComponent.TestRenames →
      apiserverauth.StableID apiserverauth.ApiserverAuthComponent test = v) ∧
    cloudcomputemachineapiproviders.StableID
      cloudcomputemachineapiproviders.MachineAPIProvidersComponent test = test.Name := by
  refine ⟨?_, ?_, ?_, ?_⟩
  · intro c
    refine ⟨fun v h => apiserverauth.StableID_of_get?_some_auth c test v h,
      apiserverauth.StableID_mem_auth c test, ?_,
      fun t' h => apiserverauth.StableID_congr_auth c test t' h⟩
    intro h
    exact apiserverauth.StableID_of_get?_none_auth c test ((GoMap.get?_eq_none_iff _ _).mpr h)
  · intro c
    refine ⟨fun v h => cloudcomputemachineapiproviders.StableID_of_get?_some_mapi c test v h,
      cloudcomputemachineapiproviders.StableID_mem_mapi c test, ?_,
      fun t' h => cloudcomputemachineapiproviders.StableID_congr_mapi c test t' h⟩
    intro h
    exact cloudcomputemachineapiproviders.StableID_of_get?_none_mapi c test
      ((GoMap.get?_eq_none_iff _ _).mpr h)
  · intro v hv
    exact apiserverauth.StableID_of_get?_some_auth _ test v
      (GoMap.get?_of_mem_of_nodup _ _ _ apiserverauth.TestRenames_keys_nodup hv)
  · exact cloudcomputemachineapiproviders.StableID_registered test

set_option maxRecDepth 100000 in
/-- Instances of `StableID_lookup` for the registered apiserver-auth component:
a renamed alert test gets its older `bz-` name, whatever its suite and variants,
and a name that is not a key of the table is returned unchanged. -/
theorem StableID_lookup_witness :
    apiserverauth.StableID apiserverauth.ApiserverAuthComponent
        { Name := "[apiserver-auth][invariant] alert/KubePodNotReady should not be at or above info in ns/openshift-authentication",
          Suite := "openshift-tests", Variants := ["Platform:aws"] }
      = "[bz-apiserver-auth][invariant] alert/KubePodNotReady should not be at or above info in ns/openshift-authentication" ∧
    apiserverauth.StableID apiserverauth.ApiserverAuthComponent config.gcpTest
      = "install should succeed" :=
  ⟨(StableID_lookup
      { Name := "[apiserver-auth][invariant] alert/KubePodNotReady should not be at or above info in ns/openshift-authentication",
        Suite := "openshift-tests", Variants := ["Platform:aws"] }).2.2.1 _ (by decide),
   ((StableID_lookup config.gcpTest).1 apiserverauth.ApiserverAuthComponent).2.2.1
      (by decide)⟩

/-- C9: the registered rename tables map to the oldest known name. In the
`TestRenames` of the apiserver-auth component no mapped-to name is itself a key,
so `StableID` is idempotent: for every test t, a test whose name is
`StableID t` has the stable ID `StableID t`. The same holds for the Machine API
Providers component. -/
theorem StableID_idempotent :
    (∀ e ∈ apiserverauth.ApiserverAuthComponent.TestRenames,
      ∀ f ∈ apiserverauth.ApiserverAuthComponent.TestRenames, f.1 ≠ e.2) ∧
    (∀ t t' : TestInfo,
      t'.Name = apiserverauth.StableID apiserverauth.ApiserverAuthComponent t →
      apiserverauth.StableID apiserverauth.ApiserverAuthComponent t'
        = apiserverauth.StableID apiserverauth.ApiserverAuthComponent t) ∧
    (∀ t t' : TestInfo,
      t'.Name = cloudcomputemachineapiproviders.StableID
        cloudcomputemachineapiproviders.MachineAPIProvidersComponent t →
      cloudcomputemachineapiproviders.StableID
          cloudcomputemachineapiproviders.MachineAPIProvidersComponent t'
        = cloudcomputemachineapiproviders.StableID
            cloudcomputemachineapiproviders.MachineAPIProvidersComponent t) := by
  refine ⟨apiserverauth.TestRenames_values_not_keys, ?_, ?_⟩
  · intro t t' h
    exact apiserverauth.StableID_idempotent_of _ apiserverauth.TestRenames_values_not_keys t t' h
  · intro t t' h
    rw [cloudcomputemachineapiproviders.StableID_registered] at h ⊢
    rw [cloudcomputemachineapiproviders.StableID_registered, h]

set_option maxRecDepth 100000 in
/-- An instance of `StableID_idempotent`: the stable name of a renamed scheduling
test is its own stable name. -/
theorem StableID_idempotent_witness :
    apiserverauth.StableID apiserverauth.ApiserverAuthComponent
        { Name := "[sig-scheduling][Early] The openshift-authentication pods [apigroup:oauth.openshift.io] should be scheduled on different nodes [Suite:openshift/conformance/parallel]",
          Suite := "", Variants := [] }
      = apiserverauth.StableID apiserverauth.ApiserverAuthComponent
        { Name := "[sig-scheduling][Early] The openshift-authentication pods [apigroup:oauth.openshift.io] should be scheduled on different nodes [Skipped:SingleReplicaTopology] [Suite:openshift/conformance/parallel]",
          Suite := "openshift-tests", Variants := [] } :=
  StableID_idempotent.2.1 _ _ (by decide)

theorem documentedStableID_ne (suite name : String) :
    name ≠ documentedStableID suite name := by
  intro h
  have hl := congrArg String.length h
  simp only [documentedStableID, String.length_append] at hl
  have h1 : (".": String).length = 1 := by decide
  omega

/-- C11, the code at failing inputs: `StableID` returns a test name without the
suite. For `gcpTest` of the suite "UPI GCP Tests" the Machine API Providers
component returns "install should succeed", not "UPI GCP Tests.install should
succeed"; for the renamed `renamedAlertTest` of the suite "openshift-tests" the
apiserver-auth component returns the older `bz-` name, not "openshift-tests." +
that name. For no test and no rule set of either package is the result the
suite name + "." + the name (or oldest name) it is built from. -/
theorem StableID_omits_suite :
    (cloudcomputemachineapiproviders.StableID
        cloudcomputemachineapiproviders.MachineAPIProvidersComponent config.gcpTest
      = "install should succeed" ∧
     documentedStableID config.gcpTest.Suite config.gcpTest.Name
      = "UPI GCP Tests.install should succeed") ∧
    (apiserverauth.StableID apiserverauth.ApiserverAuthComponent config.renamedAlertTest
      = "[bz-apiserver-auth][invariant] alert/KubePodNotReady should not be at or above info in ns/openshift-authentication" ∧
     documentedStableID config.renamedAlertTest.Suite
        "[bz-apiserver-auth][invariant] alert/KubePodNotReady should not be at or above info in ns/openshift-authentication"
      = "openshift-tests.[bz-apiserver-auth][invariant] alert/KubePodNotReady should not be at or above info in ns/openshift-authentication") ∧
    (∀ (c : apiserverauth.Component) (t : TestInfo),
      (c.TestRenames.get? t.Name = none →
        apiserverauth.StableID c t = t.Name ∧
        apiserverauth.StableID c t ≠ documentedStableID t.Suite t.Name) ∧
      (∀ oldest, c.TestRenames.get? t.Name = some oldest →
        apiserverauth.StableID c t = oldest ∧
        apiserverauth.StableID c t ≠ documentedStableID t.Suite oldest)) ∧
    (∀ (c : cloudcomputemachineapiproviders.Component) (t : TestInfo),
      (c.TestRenames.get? t.Name = none →
        cloudcomputemachineapiproviders.StableID c t = t.Name ∧
        cloudcomputemachineapiproviders.StableID c t ≠ documentedStableID t.Suite t.Name) ∧
      (∀ oldest, c.TestRenames.get? t.Name = some oldest →
        cloudcomputemachineapiproviders.StableID c t = oldest ∧
        cloudcomputemachineapiproviders.StableID c t
          ≠ documentedStableID t.Suite oldest)) := by
  refine ⟨⟨by decide, by decide⟩, ⟨by decide, by decide⟩, ?_, ?_⟩
  · intro c t
    constructor
    · intro h
      have e := apiserverauth.StableID_of_get?_none_auth c t h
      exact ⟨e, by rw [e]; exact documentedStableID_ne _ _⟩
    · intro oldest h
      have e := apiserverauth.StableID_of_get?_some_auth c t oldest h
      exact ⟨e, by rw [e]; exact documentedStableID_ne _ _⟩
  · intro c t
    constructor
    · intro h
      have e := cloudcomputemachineapiproviders.StableID_of_get?_none_mapi c t h
      exact ⟨e, by rw [e]; exact documentedStableID_ne _ _⟩
    · intro oldest h
      have e := cloudcomputemachineapiproviders.StableID_of_get?_some_mapi c t oldest h
      exact ⟨e, by rw [e]; exact documentedStableID_ne _ _⟩

end StableID

end CiTestMapping
